import Mathlib

/-!
Verification of `scripts/generate_icons.py` (icon-generator skill).

The script is shallowly embedded below.  Python strings are modelled as
`List Char`; Pillow images as a `width`/`height`/pixel-function record with
RGBA channels in `Nat`; the Pillow resampling filter identifier becomes a
function parameter (the script never inspects it, it only forwards it);
filesystem effects become an explicit trace of operations.
-/

namespace IconGen

/-- RGBA pixel: (red, green, blue, alpha), each conceptually a uint8. -/
abbrev Col := Nat × Nat × Nat × Nat

/-- Characters Python's `str.strip()` removes (ASCII whitespace; the
Unicode extras are irrelevant to the inputs considered here). -/
def pyIsSpace (c : Char) : Bool :=
  c = ' ' || c = '\t' || c = '\n' || c = '\r' || c = '\x0b' || c = '\x0c'

/-- Hexadecimal digits accepted by Python's `int(_, 16)`. -/
def pyIsHexDigit (c : Char) : Bool :=
  ('0' ≤ c && c ≤ '9') || ('a' ≤ c && c ≤ 'f') || ('A' ≤ c && c ≤ 'F')

/-- Numeric value of a hexadecimal digit. -/
def hexVal (c : Char) : Nat :=
  if '0' ≤ c && c ≤ '9' then c.toNat - '0'.toNat
  else if 'a' ≤ c && c ≤ 'f' then c.toNat - 'a'.toNat + 10
  else if 'A' ≤ c && c ≤ 'F' then c.toNat - 'A'.toNat + 10
  else 0

/-- Python's `int(s, 16)` on a two-character slice `s = ⟨c, d⟩`.
Besides a plain pair of hex digits, Python's `int` also accepts an
optional sign before the digits and whitespace at either end of the
string, so a two-character slice can be sign+digit, space+digit or
digit+space — and a leading `-` yields a negative value. -/
def pyIntHex2 (c d : Char) : Option Int :=
  if pyIsHexDigit c && pyIsHexDigit d then
    some (16 * (hexVal c : Int) + hexVal d)
  else if c = '+' && pyIsHexDigit d then
    some (hexVal d)
  else if c = '-' && pyIsHexDigit d then
    some (-(hexVal d : Int))
  else if pyIsSpace c && pyIsHexDigit d then
    some (hexVal d)
  else if pyIsHexDigit c && pyIsSpace d then
    some (hexVal c)
  else
    none

/-- Python's `str.strip()`: drop the run of whitespace at both ends. -/
def pyStrip (l : List Char) : List Char :=
  ((l.dropWhile pyIsSpace).reverse.dropWhile pyIsSpace).reverse

/-- Python's `str.lstrip("#")`: drop every leading `#`. -/
def pyLstripHash (l : List Char) : List Char :=
  l.dropWhile (fun c => c = '#')

/-- Model of `_parse_hex_color`: strip whitespace, drop leading `#`s, then read the
2-character slices with `int(_, 16)`; `none` models the raised
`ValueError` / propagated exception. -/
def _parse_hex_color (value : List Char) : Option (Int × Int × Int × Int) :=
  let v := pyLstripHash (pyStrip value)
  match v with
  | [c0, c1, c2, c3, c4, c5] => do
      let r ← pyIntHex2 c0 c1
      let g ← pyIntHex2 c2 c3
      let b ← pyIntHex2 c4 c5
      pure (r, g, b, 255)
  | [c0, c1, c2, c3, c4, c5, c6, c7] => do
      let r ← pyIntHex2 c0 c1
      let g ← pyIntHex2 c2 c3
      let b ← pyIntHex2 c4 c5
      let a ← pyIntHex2 c6 c7
      pure (r, g, b, a)
  | _ => none


/-! ## Image model -/

/-- An in-memory raster: Pillow `Image` in mode RGBA.  The pixel function
is total; only coordinates below `width`/`height` are meaningful. -/
structure Img where
  width : Nat
  height : Nat
  pixel : Nat → Nat → Col

/-- A Pillow resampling filter (`Image.LANCZOS` etc.): the script only
forwards the identifier to `Image.resize`, so the filter is modelled as
the pixel-producing kernel itself: given the source pixels and
dimensions plus the target size, it yields the resampled pixel at each
coordinate. -/
abbrev Filter := (Nat → Nat → Col) → Nat → Nat → Nat → Nat → Nat → Col

/-- Pillow's `Image.new("RGBA", (w, h), color)`. -/
def imageNew (w h : Nat) (color : Col) : Img :=
  ⟨w, h, fun _ _ => color⟩

/-- The quantity `((a >> 8) + a) >> 8`: Pillow's `SHIFTFORDIV255` approximate
division by 255 (exact whenever the argument is `255 * k + 128`). -/
def shiftForDiv255 (a : Nat) : Nat :=
  (a / 256 + a) / 256

/-- One pixel of Pillow's `Image.alpha_composite` (src over dst), after
`ImagingAlphaComposite` with `PRECISION_BITS = 7`:
`outa255 = srcA*255 + dstA*(255-srcA)`; the colour channels are blended
with coefficients `coef1 = srcA*255*255*128/outa255`,
`coef2 = 255*128 - coef1` and rounded by `SHIFTFORDIV255`. -/
def compositePixel (src dst : Col) : Col :=
  let (sr, sg, sb, sa) := src
  let (dr, dg, db, da) := dst
  let blend := da * (255 - sa)
  let outa255 := sa * 255 + blend
  let outA := shiftForDiv255 (outa255 + 128)
  if outa255 = 0 then
    (0, 0, 0, outA)
  else
    let coef1 := sa * 255 * 255 * 128 / outa255
    let coef2 := 255 * 128 - coef1
    (shiftForDiv255 (sr * coef1 + dr * coef2 + 16384) / 128,
     shiftForDiv255 (sg * coef1 + dg * coef2 + 16384) / 128,
     shiftForDiv255 (sb * coef1 + db * coef2 + 16384) / 128,
     outA)

/-- Pillow's `dst.alpha_composite(src, (x, y))`: paste `src` over `dst` with alpha
blending; pixels outside the pasted window keep the `dst` value. -/
def alphaComposite (dst src : Img) (x y : Nat) : Img :=
  ⟨dst.width, dst.height, fun i j =>
    if x ≤ i ∧ i < x + src.width ∧ y ≤ j ∧ j < y + src.height then
      compositePixel (src.pixel (i - x) (j - y)) (dst.pixel i j)
    else
      dst.pixel i j⟩

/-- Pillow's `img.crop((left, top, right, bottom))`. -/
def pilCrop (img : Img) (left top right bottom : Nat) : Img :=
  ⟨right - left, bottom - top, fun i j => img.pixel (left + i) (top + j)⟩

/-- Pillow's `img.resize((size, size), resample)`: an image of exactly the target
dimensions whose pixels come from the filter kernel. -/
def pilResize (img : Img) (size : Nat) (resample : Filter) : Img :=
  ⟨size, size, fun i j => resample img.pixel img.width img.height size i j⟩

/-- Model of `_ensure_square`: return square input unchanged; otherwise crop to a
centred `min`-sided square (policy crop) or alpha-composite onto a
`max`-sided background canvas (policy pad). -/
def _ensure_square (img : Img) (pad_to_square : Bool) (background_rgba : Col) : Img :=
  if img.width = img.height then
    img
  else if !pad_to_square then
    let side := min img.width img.height
    let left := (img.width - side) / 2
    let top := (img.height - side) / 2
    pilCrop img left top (left + side) (top + side)
  else
    let side := max img.width img.height
    let canvas := imageNew side side background_rgba
    let x := (side - img.width) / 2
    let y := (side - img.height) / 2
    alphaComposite canvas img x y

/-- Model of `_resize`: skip resampling when the image already has the requested
dimensions. -/
def _resize (img : Img) (size : Nat) (resample : Filter) : Img :=
  if img.width = size ∧ img.height = size then
    img
  else
    pilResize img size resample

/-- Python 3 `round` on an exact rational: round half to even. -/
def pyRound (q : ℚ) : Int :=
  if q - ⌊q⌋ < 1 / 2 then ⌊q⌋
  else if 1 / 2 < q - ⌊q⌋ then ⌊q⌋ + 1
  else if ⌊q⌋ % 2 = 0 then ⌊q⌋ else ⌊q⌋ + 1

/-- Model of `_fit_with_padding`: clamp the content scale to `[0.1, 1.0]`, compute
the inner content side (rounded, clamped to `[1, size]`), resize the
source to it and alpha-composite it centred on a background-filled
canvas.  The Python scale is a float; it is modelled as an exact
rational, which is faithful for every property proved here because
those hold for every inner side in `[1, size]`. -/
def _fit_with_padding (img : Img) (size : Nat) (content_scale : ℚ)
    (background_rgba : Col) (resample : Filter) : Img :=
  let cs := max (1 / 10 : ℚ) (min content_scale 1)
  let inner0 := (pyRound ((size : ℚ) * cs)).toNat
  let inner := max 1 (min inner0 size)
  let inner_img := _resize img inner resample
  let canvas := imageNew size size background_rgba
  let x := (size - inner) / 2
  let y := (size - inner) / 2
  alphaComposite canvas inner_img x y

/-! ## Filesystem-effect model

Each write helper is modelled by the trace of filesystem operations it
performs; paths are component lists relative to the `--out` directory
(`[]` is the output directory itself). -/

/-- A filesystem operation performed by the script. -/
inductive FsOp where
  | mkdir (path : List String)
  | png (path : List String) (w h : Nat)
  | ico (path : List String) (sizes : List Nat) (baseW baseH : Nat)
deriving DecidableEq, Repr

/-- Does the operation write a file (as opposed to creating a directory)? -/
def FsOp.isWrite : FsOp → Bool
  | .mkdir _ => false
  | .png _ _ _ => true
  | .ico _ _ _ _ => true

/-- First path component of the operation's path. -/
def FsOp.pathHead : FsOp → Option String
  | .mkdir p => p.head?
  | .png p _ _ => p.head?
  | .ico p _ _ _ => p.head?

/-- Model of `_write_png`: `path.parent.mkdir(...)` then save the raster as PNG. -/
def _write_png_ops (img : Img) (path : List String) : List FsOp :=
  [FsOp.mkdir path.dropLast, FsOp.png path img.width img.height]

/-- Model of `_write_ico`: `path.parent.mkdir(...)`, resize the source once to the
maximum requested size as the ICO base, then save with the size list
(recorded in the trace as the stored sizes). -/
def _write_ico_ops (source_square : Img) (path : List String)
    (sizes : List Nat) (resample : Filter) : List FsOp :=
  let base := _resize source_square (sizes.foldl max 0) resample
  [FsOp.mkdir path.dropLast, FsOp.ico path sizes base.width base.height]

/-- The `Options` dataclass. -/
structure Options where
  input_path : List Char
  out_dir : List Char
  targets : List (List Char)
  pad_to_square : Bool
  background : List Char
  maskable_scale : ℚ
  resample : Filter

/-- Pillow channel values are uint8; a parsed colour is materialised as
such when handed to `Image.new` (the parses exercised by `main` are all
non-negative). -/
def colOfInt (c : Int × Int × Int × Int) : Col :=
  (c.1.toNat, c.2.1.toNat, c.2.2.1.toNat, c.2.2.2.toNat)

/-- Model of `generate_web`: favicon, the three fixed PNGs, then — after parsing
the background colour again — the maskable PNG.  The `Bool` is `false`
when that colour re-parse raises (unreachable from `main`, which has
already parsed the same string). -/
def generate_web (opts : Options) (src_square : Img) : List FsOp × Bool :=
  let ops1 :=
    _write_ico_ops src_square ["favicon.ico"] [16, 32, 48] opts.resample ++
    _write_png_ops (_resize src_square 180 opts.resample) ["apple-touch-icon.png"] ++
    _write_png_ops (_resize src_square 192 opts.resample) ["icon-192.png"] ++
    _write_png_ops (_resize src_square 512 opts.resample) ["icon-512.png"]
  match _parse_hex_color opts.background with
  | none => (ops1, false)
  | some bg =>
      let maskable := _fit_with_padding src_square 512 opts.maskable_scale
        (colOfInt bg) opts.resample
      (ops1 ++ _write_png_ops maskable ["icon-maskable-512.png"], true)

/-- The fixed macOS iconset entries (filename, pixel size). -/
def mac_entries : List (String × Nat) :=
  [("icon_16x16.png", 16),
   ("icon_16x16@2x.png", 32),
   ("icon_32x32.png", 32),
   ("icon_32x32@2x.png", 64),
   ("icon_128x128.png", 128),
   ("icon_128x128@2x.png", 256),
   ("icon_256x256.png", 256),
   ("icon_256x256@2x.png", 512),
   ("icon_512x512.png", 512),
   ("icon_512x512@2x.png", 1024)]

/-- Model of `generate_ue`: Windows ICO, the macOS iconset directory and its ten
PNGs, and the two Linux PNGs — all under the `ue/` subdirectory. -/
def generate_ue (opts : Options) (src_square : Img) : List FsOp :=
  _write_ico_ops src_square ["ue", "windows", "icon.ico"]
    [16, 24, 32, 48, 64, 128, 256] opts.resample ++
  [FsOp.mkdir ["ue", "mac", "AppIcon.iconset"]] ++
  (mac_entries.flatMap fun e =>
    _write_png_ops (_resize src_square e.2 opts.resample)
      ["ue", "mac", "AppIcon.iconset", e.1]) ++
  _write_png_ops (_resize src_square 256 opts.resample) ["ue", "linux", "icon-256.png"] ++
  _write_png_ops (_resize src_square 512 opts.resample) ["ue", "linux", "icon-512.png"]

/-- The target names `_parse_targets` accepts. -/
def allowedTargets : List (List Char) := ["web".toList, "ue".toList]

/-- The stripped, lowercased, non-empty entries of the `--targets` value
(the Python set comprehension, as a list: only membership is ever
consulted, so duplicates are immaterial). -/
def targetEntries (value : List Char) : List (List Char) :=
  ((value.splitOn ',').filter (fun t => pyStrip t ≠ [])).map
    (fun t => (pyStrip t).map Char.toLower)

/-- Model of `_parse_targets`: `none` models the raised `ValueError` when any
entry is not an allowed target name. -/
def _parse_targets (value : List Char) : Option (List (List Char)) :=
  let targets := targetEntries value
  let unknown := targets.filter (fun t => t ∉ allowedTargets)
  if unknown = [] then some targets else none


/-- The command-line inputs reaching `main` after argparse, plus the
result of opening the input image (`none` = unreadable/undecodable). -/
structure Args where
  input : List Char
  targetsStr : List Char
  no_pad : Bool
  background : List Char
  maskable_scale : ℚ
  img : Option Img
  resample : Filter

/-- Model of `main`: create the output directory, parse targets, parse the
background colour, load the image, normalise it to a square, then run
the requested generators.  Returns the trace of filesystem operations
together with the process exit code (an uncaught exception exits 1). -/
def mainRun (a : Args) : List FsOp × Nat :=
  let ops0 : List FsOp := [FsOp.mkdir []]
  match _parse_targets a.targetsStr with
  | none => (ops0, 1)
  | some targets =>
    let opts : Options :=
      ⟨a.input, [], targets, !a.no_pad, a.background, a.maskable_scale, a.resample⟩
    match _parse_hex_color opts.background with
    | none => (ops0, 1)
    | some bgI =>
      match a.img with
      | none => (ops0, 1)
      | some src =>
        let bg := colOfInt bgI
        let src_square := _ensure_square src opts.pad_to_square bg
        let web := if ("web".toList) ∈ opts.targets
          then generate_web opts src_square else ([], true)
        if web.2 then
          let ueOps := if ("ue".toList) ∈ opts.targets
            then generate_ue opts src_square else []
          (ops0 ++ web.1 ++ ueOps, 0)
        else
          (ops0 ++ web.1, 1)

/-! ## Concrete fixtures used by witnesses -/

/-- A concrete resampling kernel (valid uint8 output whenever the source
pixels are): point sampling at the same coordinates. -/
def idFilter : Filter := fun p _ _ _ i j => p i j

/-- An 8×8 fully transparent raster. -/
def clearImg : Img := ⟨8, 8, fun _ _ => (0, 0, 0, 0)⟩

/-- A 5×3 opaque raster. -/
def wideImg : Img := ⟨5, 3, fun _ _ => (10, 20, 30, 255)⟩

/-- Does the trace contain no file write? -/
def noWrites (ops : List FsOp) : Bool :=
  ops.all (fun op => !op.isWrite)

/-- An `Options` value with the script's defaults and the `ue` target. -/
def ueOpts : Options :=
  ⟨"icon.png".toList, [], ["ue".toList], true, "#000000".toList, 4 / 5, idFilter⟩

/-- Inputs of `main` for `--targets bogus` on a readable input image. -/
def argsBogus : Args :=
  ⟨"icon.png".toList, "bogus".toList, false, "#000000".toList, 4 / 5, some clearImg, idFilter⟩

/-- Inputs of `main` for `--targets ","` on a readable input image. -/
def argsComma : Args :=
  ⟨"icon.png".toList, ",".toList, false, "#000000".toList, 4 / 5, some clearImg, idFilter⟩

/-! ## Helper lemmas -/

theorem resize_w (img : Img) (size : Nat) (f : Filter) : (_resize img size f).width = size := by
  unfold _resize
  split
  · exact (by assumption : img.width = size ∧ img.height = size).1
  · rfl

theorem resize_h (img : Img) (size : Nat) (f : Filter) : (_resize img size f).height = size := by
  unfold _resize
  split
  · exact (by assumption : img.width = size ∧ img.height = size).2
  · rfl

theorem resize_alpha_le (img : Img) (n : Nat) (f : Filter)
    (himg : ∀ x y, (img.pixel x y).2.2.2 ≤ 255)
    (hf : ∀ s i j, (f img.pixel img.width img.height s i j).2.2.2 ≤ 255) :
    ∀ x y, ((_resize img n f).pixel x y).2.2.2 ≤ 255 := by
  intro x y
  unfold _resize
  split
  · exact himg x y
  · exact hf n x y

theorem compositePixel_alpha_opaque (s d : Col) (hs : s.2.2.2 ≤ 255) (hd : d.2.2.2 = 255) :
    (compositePixel s d).2.2.2 = 255 := by
  obtain ⟨sr, sg, sb, sa⟩ := s
  obtain ⟨dr, dg, db, da⟩ := d
  simp only at hs hd
  subst hd
  have h1 : sa * 255 + 255 * (255 - sa) = 65025 := by omega
  simp only [compositePixel, h1]
  norm_num [shiftForDiv255]

theorem hex_not_space {c : Char} (h : pyIsHexDigit c = true) : pyIsSpace c = false := by
  rcases Bool.eq_false_or_eq_true (pyIsSpace c) with ht | hf
  · exfalso
    unfold pyIsSpace at ht
    simp only [Bool.or_eq_true, decide_eq_true_eq] at ht
    rcases ht with ((((h1 | h1) | h1) | h1) | h1) | h1 <;> subst h1 <;>
      exact absurd h (by decide)
  · exact hf

theorem hex_ne_hash {c : Char} (h : pyIsHexDigit c = true) : c ≠ '#' := by
  intro h1
  subst h1
  exact absurd h (by decide)

theorem dropWhile_eq_self_of_all {p : Char → Bool} {l : List Char}
    (h : ∀ c ∈ l, p c = false) : l.dropWhile p = l := by
  cases l with
  | nil => rfl
  | cons c t => exact List.dropWhile_cons_of_neg (by simp [h c (by simp)])

theorem pyStrip_eq_self_of_hex {l : List Char}
    (h : ∀ c ∈ l, pyIsHexDigit c = true) : pyStrip l = l := by
  unfold pyStrip
  rw [dropWhile_eq_self_of_all (fun c hc => hex_not_space (h c hc)),
      dropWhile_eq_self_of_all (fun c hc => hex_not_space (h c (List.mem_reverse.mp hc))),
      List.reverse_reverse]

theorem pyLstripHash_eq_self_of_hex {l : List Char}
    (h : ∀ c ∈ l, pyIsHexDigit c = true) : pyLstripHash l = l := by
  unfold pyLstripHash
  exact dropWhile_eq_self_of_all (fun c hc => decide_eq_false (hex_ne_hash (h c hc)))

theorem dropWhile_replicate_append {p : Char → Bool} {x : Char} (hx : p x = true)
    (n : Nat) (l : List Char) :
    List.dropWhile p (List.replicate n x ++ l) = List.dropWhile p l := by
  induction n with
  | zero => rfl
  | succ k ih => simp [List.replicate_succ, hx, ih]

theorem dropWhile_eq_self_append {p : Char → Bool} {l : List Char}
    (hl : List.dropWhile p l = l) (hne : l ≠ []) (t : List Char) :
    List.dropWhile p (l ++ t) = l ++ t := by
  cases l with
  | nil => exact absurd rfl hne
  | cons c cs =>
      have hc : p c = false := by
        rcases Bool.eq_false_or_eq_true (p c) with h | h
        · exfalso
          rw [List.dropWhile_cons_of_pos h] at hl
          have h2 : (List.dropWhile p cs).length ≤ cs.length :=
            (List.dropWhile_sublist p).length_le
          rw [hl] at h2
          simp at h2
        · exact h
      rw [List.cons_append, List.dropWhile_cons_of_neg (by simp [hc])]

/-! ## Claim theorems -/

/-- C7: for every raster whose width equals its height, `_ensure_square`
returns it unchanged (pixel-identical), under both the pad and the crop
policy. -/
theorem ensure_square_id_on_square (img : Img) (pad : Bool) (bg : Col)
    (h : img.width = img.height) : _ensure_square img pad bg = img := by
  unfold _ensure_square
  rw [if_pos h]

/-- Witness for C7 on a concrete square raster. -/
theorem ensure_square_id_on_square_witness :
    _ensure_square clearImg true (0, 0, 0, 255) = clearImg :=
  ensure_square_id_on_square clearImg true (0, 0, 0, 255) rfl

/-- C8: for every raster and positive target size, `_resize` returns the
input itself (no resampling) when the raster is already exactly
`(size, size)`, and otherwise returns a raster of exactly
`(size, size)`. -/
theorem resize_noop_and_dims (img : Img) (size : Nat) (f : Filter) (hpos : 0 < size) :
    (img.width = size ∧ img.height = size → _resize img size f = img) ∧
    (¬(img.width = size ∧ img.height = size) →
      (_resize img size f).width = size ∧ (_resize img size f).height = size) := by
  constructor
  · intro h
    unfold _resize
    rw [if_pos h]
  · intro h
    unfold _resize
    rw [if_neg h]
    exact ⟨rfl, rfl⟩

/-- Witness for C8: an 8×8 raster resized to 8 is returned untouched,
and resized to 16 has dimensions 16×16. -/
theorem resize_noop_and_dims_witness :
    _resize clearImg 8 idFilter = clearImg ∧ (_resize clearImg 16 idFilter).width = 16 :=
  ⟨(resize_noop_and_dims clearImg 8 idFilter (by decide)).1 ⟨rfl, rfl⟩,
   ((resize_noop_and_dims clearImg 16 idFilter (by decide)).2 (by decide)).1⟩

/-- C6: on a non-square raster, crop policy yields a `min`-sided square
whose window starts at the floored half-margins (the odd extra pixel
lands on the trailing edge), and pad policy yields a `max`-sided square
filled with the background, with the source alpha-composited at the
floored half-offsets. -/
theorem ensure_square_nonsquare_spec (img : Img) (bg : Col)
    (hne : img.width ≠ img.height) :
    ((_ensure_square img false bg).width = min img.width img.height ∧
     (_ensure_square img false bg).height = min img.width img.height ∧
     (∀ i j, (_ensure_square img false bg).pixel i j =
        img.pixel ((img.width - min img.width img.height) / 2 + i)
                  ((img.height - min img.width img.height) / 2 + j)) ∧
     (img.width - min img.width img.height) - (img.width - min img.width img.height) / 2 =
       (img.width - min img.width img.height) / 2 +
         (img.width - min img.width img.height) % 2 ∧
     (img.height - min img.width img.height) - (img.height - min img.width img.height) / 2 =
       (img.height - min img.width img.height) / 2 +
         (img.height - min img.width img.height) % 2) ∧
    ((_ensure_square img true bg).width = max img.width img.height ∧
     (_ensure_square img true bg).height = max img.width img.height ∧
     ∀ i j, (_ensure_square img true bg).pixel i j =
       if (max img.width img.height - img.width) / 2 ≤ i ∧
          i < (max img.width img.height - img.width) / 2 + img.width ∧
          (max img.width img.height - img.height) / 2 ≤ j ∧
          j < (max img.width img.height - img.height) / 2 + img.height then
         compositePixel
           (img.pixel (i - (max img.width img.height - img.width) / 2)
                      (j - (max img.width img.height - img.height) / 2)) bg
       else bg) := by
  constructor
  · refine ⟨?_, ?_, ?_, by omega, by omega⟩ <;>
      simp [_ensure_square, hne, pilCrop]
  · refine ⟨?_, ?_, ?_⟩ <;>
      simp [_ensure_square, hne, alphaComposite, imageNew]

/-- Witness for C6 on a concrete 5×3 raster: crop side 3, pad side 5,
and the pad canvas shows pure background above the pasted window. -/
theorem ensure_square_nonsquare_spec_witness :
    (_ensure_square wideImg false (9, 9, 9, 255)).width = 3 ∧
    (_ensure_square wideImg true (9, 9, 9, 255)).width = 5 ∧
    (_ensure_square wideImg true (9, 9, 9, 255)).pixel 0 0 = (9, 9, 9, 255) := by
  have h := ensure_square_nonsquare_spec wideImg (9, 9, 9, 255) (by decide)
  refine ⟨h.1.1, h.2.1, ?_⟩
  have hp := h.2.2.2 0 0
  simpa using hp

/-- C4: the maskable composer's output is fully opaque at every
canvas-border pixel whenever the background alpha is 255, for every
source raster, canvas size and content scale, whatever transparency the
(resampled) source has. -/
theorem maskable_border_opaque (img : Img) (size : Nat) (cs : ℚ) (r g b : Nat) (f : Filter)
    (himg : ∀ x y, (img.pixel x y).2.2.2 ≤ 255)
    (hf : ∀ s i j, (f img.pixel img.width img.height s i j).2.2.2 ≤ 255)
    (i j : Nat) (hi : i < size) (hj : j < size)
    (hborder : i = 0 ∨ i + 1 = size ∨ j = 0 ∨ j + 1 = size) :
    ((_fit_with_padding img size cs (r, g, b, 255) f).pixel i j).2.2.2 = 255 := by
  unfold _fit_with_padding
  simp only [alphaComposite, imageNew]
  split
  · exact compositePixel_alpha_opaque _ _ (resize_alpha_le img _ f himg hf _ _) rfl
  · rfl

/-- C5: every valid 6-hex-digit colour parses with alpha 255, and every
valid 8-hex-digit colour parses with alpha equal to the value of the
last two hex digits. -/
theorem parse_hex_color_alpha (c0 c1 c2 c3 c4 c5 c6 c7 : Char)
    (h0 : pyIsHexDigit c0 = true) (h1 : pyIsHexDigit c1 = true)
    (h2 : pyIsHexDigit c2 = true) (h3 : pyIsHexDigit c3 = true)
    (h4 : pyIsHexDigit c4 = true) (h5 : pyIsHexDigit c5 = true)
    (h6 : pyIsHexDigit c6 = true) (h7 : pyIsHexDigit c7 = true) :
    _parse_hex_color [c0, c1, c2, c3, c4, c5] =
      some (16 * (hexVal c0 : Int) + hexVal c1, 16 * (hexVal c2 : Int) + hexVal c3,
            16 * (hexVal c4 : Int) + hexVal c5, 255) ∧
    _parse_hex_color [c0, c1, c2, c3, c4, c5, c6, c7] =
      some (16 * (hexVal c0 : Int) + hexVal c1, 16 * (hexVal c2 : Int) + hexVal c3,
            16 * (hexVal c4 : Int) + hexVal c5, 16 * (hexVal c6 : Int) + hexVal c7) := by
  have hall6 : ∀ c ∈ [c0, c1, c2, c3, c4, c5], pyIsHexDigit c = true := by
    intro c hc
    simp only [List.mem_cons, List.not_mem_nil, or_false] at hc
    rcases hc with rfl | rfl | rfl | rfl | rfl | rfl <;> assumption
  have hall8 : ∀ c ∈ [c0, c1, c2, c3, c4, c5, c6, c7], pyIsHexDigit c = true := by
    intro c hc
    simp only [List.mem_cons, List.not_mem_nil, or_false] at hc
    rcases hc with rfl | rfl | rfl | rfl | rfl | rfl | rfl | rfl <;> assumption
  constructor
  · unfold _parse_hex_color
    rw [pyStrip_eq_self_of_hex hall6, pyLstripHash_eq_self_of_hex hall6]
    simp [pyIntHex2, h0, h1, h2, h3, h4, h5]
  · unfold _parse_hex_color
    rw [pyStrip_eq_self_of_hex hall8, pyLstripHash_eq_self_of_hex hall8]
    simp [pyIntHex2, h0, h1, h2, h3, h4, h5, h6, h7]

/-- Witness for C5 at the concrete colours `00ff00` and `00ff0080`. -/
theorem parse_hex_color_alpha_witness :
    _parse_hex_color ("00ff00".toList) = some (0, 255, 0, 255) ∧
    _parse_hex_color ("00ff0080".toList) = some (0, 255, 0, 128) := by
  have h := parse_hex_color_alpha '0' '0' 'f' 'f' '0' '0' '8' '0'
    (by decide) (by decide) (by decide) (by decide) (by decide) (by decide)
    (by decide) (by decide)
  constructor
  · have e6 : ("00ff00".toList) = ['0', '0', 'f', 'f', '0', '0'] := rfl
    rw [e6, h.1]
    decide
  · have e8 : ("00ff0080".toList) = ['0', '0', 'f', 'f', '0', '0', '8', '0'] := rfl
    rw [e8, h.2]
    decide

/-- C2 (evaluation at the failing input): the string `-1aabb` contains a
non-hexadecimal character, yet `_parse_hex_color` does not fail — the
`int(v[0:2], 16)` slice accepts a sign, so the parser returns the tuple
`(-1, 170, 187, 255)`. -/
theorem parse_hex_color_accepts_nonhex :
    _parse_hex_color ("-1aabb".toList) = some (-1, 170, 187, 255) := by decide

/-- Witness for C4: a fully transparent source at content scale 1 (the
content covers the border) still yields an opaque corner pixel. -/
theorem maskable_border_opaque_witness :
    ((_fit_with_padding clearImg 5 1 (0, 0, 0, 255) idFilter).pixel 0 0).2.2.2 = 255 :=
  maskable_border_opaque clearImg 5 1 0 0 0 idFilter
    (fun _ _ => Nat.zero_le 255) (fun _ _ _ => Nat.zero_le 255) 0 0
    (by decide) (by decide) (Or.inl rfl)

/-- C3: when the `--targets` value contains an unknown target name, the
process exits non-zero and the trace contains no file write (only the
initial creation of the output directory itself). -/
theorem unknown_target_aborts_before_writes (a : Args)
    (h : ∃ t ∈ targetEntries a.targetsStr, t ∉ allowedTargets) :
    (mainRun a).2 ≠ 0 ∧ noWrites (mainRun a).1 = true := by
  obtain ⟨t, ht, hna⟩ := h
  have hne : (targetEntries a.targetsStr).filter (fun t => t ∉ allowedTargets) ≠ [] :=
    List.ne_nil_of_mem (List.mem_filter.mpr ⟨ht, by simpa using hna⟩)
  have hp : _parse_targets a.targetsStr = none := by
    simp only [_parse_targets]
    rw [if_neg hne]
  constructor
  · simp [mainRun, hp]
  · simp [mainRun, hp, noWrites, FsOp.isWrite]

/-- Witness for C3 at `--targets bogus`. -/
theorem unknown_target_aborts_before_writes_witness :
    (mainRun argsBogus).2 ≠ 0 ∧ noWrites (mainRun argsBogus).1 = true :=
  unknown_target_aborts_before_writes argsBogus (by decide)

/-- C9: when every comma-separated entry of the `--targets` value is
blank after stripping, target parsing returns the empty set without an
error, and the run exits 0 having created only the output directory and
written no file. -/
theorem blank_targets_run_completes (a : Args) (im : Img)
    (hempty : ∀ t ∈ a.targetsStr.splitOn ',', pyStrip t = [])
    (himg : a.img = some im)
    (hbg : ∃ col, _parse_hex_color a.background = some col) :
    _parse_targets a.targetsStr = some [] ∧ mainRun a = ([FsOp.mkdir []], 0) := by
  have hte : targetEntries a.targetsStr = [] := by
    unfold targetEntries
    rw [List.filter_eq_nil_iff.mpr (fun t ht => by simp [hempty t ht])]
    rfl
  have hp : _parse_targets a.targetsStr = some [] := by
    simp [_parse_targets, hte]
  obtain ⟨col, hc⟩ := hbg
  exact ⟨hp, by simp [mainRun, hp, himg, hc]⟩

/-- Witness for C9 at `--targets ","`. -/
theorem blank_targets_run_completes_witness :
    _parse_targets argsComma.targetsStr = some [] ∧
    mainRun argsComma = ([FsOp.mkdir []], 0) :=
  blank_targets_run_completes argsComma clearImg (by decide) rfl
    ⟨(0, 0, 0, 255), by decide⟩

/-- C10: `_parse_hex_color` first strips surrounding whitespace, then
removes every leading `#`, and only then applies the 6-or-8 length
dispatch: for any string `s` with no surrounding whitespace, wrapping it
in any amount of surrounding whitespace and any number of leading `#`
characters parses identically to `s` itself. -/
theorem parse_hex_color_strips_ws_and_hashes (a b c : Nat) (s : List Char)
    (h1 : s.dropWhile pyIsSpace = s)
    (h2 : s.reverse.dropWhile pyIsSpace = s.reverse) :
    _parse_hex_color
        (List.replicate a ' ' ++ List.replicate b '#' ++ s ++ List.replicate c ' ') =
      _parse_hex_color s := by
  have hsp : pyIsSpace ' ' = true := by decide
  have hnh : pyIsSpace '#' = false := by decide
  have hstrip_s : pyStrip s = s := by
    unfold pyStrip
    rw [h1, h2, List.reverse_reverse]
  have hrepdrop : ∀ n : Nat, List.dropWhile pyIsSpace (List.replicate n ' ') = [] := by
    intro n
    simpa using dropWhile_replicate_append hsp n []
  have hhashdrop : ∀ n : Nat,
      List.dropWhile pyIsSpace (List.replicate n '#') = List.replicate n '#' := by
    intro n
    cases n with
    | zero => rfl
    | succ k =>
        rw [List.replicate_succ]
        exact List.dropWhile_cons_of_neg (by simp [hnh])
  have key : pyStrip
        (List.replicate a ' ' ++ List.replicate b '#' ++ s ++ List.replicate c ' ') =
      List.replicate b '#' ++ s := by
    unfold pyStrip
    rw [List.append_assoc, List.append_assoc, dropWhile_replicate_append hsp]
    by_cases hs : s = []
    · subst hs
      cases b with
      | zero => simp [hrepdrop]
      | succ k =>
          rw [List.nil_append, List.replicate_succ, List.cons_append,
              List.dropWhile_cons_of_neg (by simp [hnh]),
              ← List.cons_append, ← List.replicate_succ,
              List.reverse_append, List.reverse_replicate, List.reverse_replicate,
              dropWhile_replicate_append hsp, hhashdrop, List.reverse_replicate,
              List.append_nil]
    · cases b with
      | zero =>
          rw [List.replicate_zero, List.nil_append, List.nil_append,
              dropWhile_eq_self_append h1 hs,
              List.reverse_append, List.reverse_replicate,
              dropWhile_replicate_append hsp, h2, List.reverse_reverse]
      | succ k =>
          rw [List.replicate_succ, List.cons_append,
              List.dropWhile_cons_of_neg (by simp [hnh]),
              ← List.cons_append, ← List.replicate_succ,
              List.reverse_append, List.reverse_replicate,
              List.reverse_append, List.reverse_replicate,
              List.append_assoc,
              dropWhile_replicate_append hsp,
              dropWhile_eq_self_append h2 (by simpa using hs),
              List.reverse_append, List.reverse_reverse, List.reverse_replicate]
  unfold _parse_hex_color
  rw [key, hstrip_s]
  unfold pyLstripHash
  rw [@dropWhile_replicate_append (fun ch => ch = '#') '#' (by decide) b s]

/-- Witness for C10: two spaces and two leading hashes around `00ff00`
parse like the bare string. -/
theorem parse_hex_color_strips_ws_and_hashes_witness :
    _parse_hex_color
        (List.replicate 2 ' ' ++ List.replicate 2 '#' ++ "00ff00".toList ++
          List.replicate 2 ' ') =
      _parse_hex_color ("00ff00".toList) :=
  parse_hex_color_strips_ws_and_hashes 2 2 2 ("00ff00".toList) (by decide) (by decide)

/-- C1 counterexample: every operation of the engine-packaging generator
lands under the `ue/` subdirectory — in particular no file is created at
`mac/AppIcon.iconset/...` (nor `windows/...`, nor `linux/...`) directly
under the output directory as the claim's relative paths state. -/
theorem generate_ue_paths_counterexample :
    (generate_ue ueOpts clearImg).all (fun op => op.pathHead == some ("ue")) = true ∧
    FsOp.png ["mac", "AppIcon.iconset", "icon_16x16.png"] 16 16 ∉
      generate_ue ueOpts clearImg := by decide

/-- C1 (amended): the engine-packaging generator writes, at fixed
relative paths rooted at `--out` but all inside the `ue/`
subdirectory: the Windows multi-size ICO (sizes 16, 24, 32, 48, 64,
128, 256, base raster 256×256) at `ue/windows/icon.ico`; exactly the 10
fixed-name iconset PNGs at sizes 16, 32, 32, 64, 128, 256, 256, 512,
512, 1024 under `ue/mac/AppIcon.iconset/`; and the two Linux PNGs (256
and 512) under `ue/linux/`. -/
theorem generate_ue_output_plan (o : Options) (src : Img) :
    generate_ue o src =
      [FsOp.mkdir ["ue", "windows"],
       FsOp.ico ["ue", "windows", "icon.ico"] [16, 24, 32, 48, 64, 128, 256] 256 256,
       FsOp.mkdir ["ue", "mac", "AppIcon.iconset"],
       FsOp.mkdir ["ue", "mac", "AppIcon.iconset"],
       FsOp.png ["ue", "mac", "AppIcon.iconset", "icon_16x16.png"] 16 16,
       FsOp.mkdir ["ue", "mac", "AppIcon.iconset"],
       FsOp.png ["ue", "mac", "AppIcon.iconset", "icon_16x16@2x.png"] 32 32,
       FsOp.mkdir ["ue", "mac", "AppIcon.iconset"],
       FsOp.png ["ue", "mac", "AppIcon.iconset", "icon_32x32.png"] 32 32,
       FsOp.mkdir ["ue", "mac", "AppIcon.iconset"],
       FsOp.png ["ue", "mac", "AppIcon.iconset", "icon_32x32@2x.png"] 64 64,
       FsOp.mkdir ["ue", "mac", "AppIcon.iconset"],
       FsOp.png ["ue", "mac", "AppIcon.iconset", "icon_128x128.png"] 128 128,
       FsOp.mkdir ["ue", "mac", "AppIcon.iconset"],
       FsOp.png ["ue", "mac", "AppIcon.iconset", "icon_128x128@2x.png"] 256 256,
       FsOp.mkdir ["ue", "mac", "AppIcon.iconset"],
       FsOp.png ["ue", "mac", "AppIcon.iconset", "icon_256x256.png"] 256 256,
       FsOp.mkdir ["ue", "mac", "AppIcon.iconset"],
       FsOp.png ["ue", "mac", "AppIcon.iconset", "icon_256x256@2x.png"] 512 512,
       FsOp.mkdir ["ue", "mac", "AppIcon.iconset"],
       FsOp.png ["ue", "mac", "AppIcon.iconset", "icon_512x512.png"] 512 512,
       FsOp.mkdir ["ue", "mac", "AppIcon.iconset"],
       FsOp.png ["ue", "mac", "AppIcon.iconset", "icon_512x512@2x.png"] 1024 1024,
       FsOp.mkdir ["ue", "linux"],
       FsOp.png ["ue", "linux", "icon-256.png"] 256 256,
       FsOp.mkdir ["ue", "linux"],
       FsOp.png ["ue", "linux", "icon-512.png"] 512 512] := by
  simp [generate_ue, mac_entries, _write_png_ops, _write_ico_ops, resize_w, resize_h]

end IconGen
